import Mathlib

/-!
Verification of the hilbert cooccurrence streaming and transformation
pipeline: a shallow embedding of `hilbert/corpus_stats.py`,
`hilbert/loaders.py` and `hilbert/bigram_loader.py`, with theorems about
the statistical transforms, the preload round-robin assignment, and the
batch iterator.

Torch float tensors are modelled by rational numbers, extended with the
IEEE special values `-inf`, `+inf` and `nan` (type `XF`) where the code
can produce them (`torch.log` of a zero count).  The transcendental
functions `log`, `exp`, `sqrt` and `digamma` are abstract function
parameters (a `Funs` record): every theorem holds for an arbitrary
interpretation, hence in particular for the real ones.
-/

/-- IEEE-style extended value: a rational, `-inf`, `+inf`, or `nan`.
Models the values a torch float tensor cell can take in this code. -/
inductive XF where
  | nan : XF
  | neginf : XF
  | posinf : XF
  | val : ℚ → XF
deriving DecidableEq

/-- IEEE addition on extended values (as torch `+` behaves). -/
def xadd : XF → XF → XF
  | .nan, _ => .nan
  | _, .nan => .nan
  | .neginf, .posinf => .nan
  | .posinf, .neginf => .nan
  | .neginf, .neginf => .neginf
  | .neginf, .val _ => .neginf
  | .val _, .neginf => .neginf
  | .posinf, .posinf => .posinf
  | .posinf, .val _ => .posinf
  | .val _, .posinf => .posinf
  | .val a, .val b => .val (a + b)

/-- IEEE subtraction on extended values (as torch `-` behaves). -/
def xsub : XF → XF → XF
  | .nan, _ => .nan
  | _, .nan => .nan
  | .neginf, .neginf => .nan
  | .neginf, .posinf => .neginf
  | .neginf, .val _ => .neginf
  | .posinf, .posinf => .nan
  | .posinf, .neginf => .posinf
  | .posinf, .val _ => .posinf
  | .val _, .neginf => .posinf
  | .val _, .posinf => .neginf
  | .val a, .val b => .val (a - b)

/-- `torch.clamp(x, min=0)`: `nan` propagates, `-inf` clamps to `0`. -/
def clampMin0 : XF → XF
  | .nan => .nan
  | .neginf => .val 0
  | .posinf => .posinf
  | .val q => .val (max q 0)

/-- Abstract interpretations of the transcendental functions used by the
source: `L` for `torch.log` on positive inputs, `E` for `np.e**x`,
`S` for the square root inside `torch.std`, `psi` for `torch.digamma`. -/
structure Funs where
  L : ℚ → ℚ
  E : ℚ → ℚ
  S : ℚ → ℚ
  psi : ℚ → ℚ

/-- `torch.log` on a rational count: `log 0 = -inf`, `log` of a negative
number is `nan`, otherwise the abstract `L`. -/
def flog (L : ℚ → ℚ) (q : ℚ) : XF :=
  if q = 0 then .neginf else if q < 0 then .nan else .val (L q)

/-- `torch.log` extended to IEEE special values. -/
def xlog (L : ℚ → ℚ) : XF → XF
  | .nan => .nan
  | .neginf => .nan
  | .posinf => .posinf
  | .val q => flog L q

/-- Extract the rational from a finite extended value (junk `0` otherwise;
only used where hypotheses guarantee finiteness). -/
def toQ : XF → ℚ
  | .val q => q
  | _ => 0

/-- Is an extended value finite? -/
def isFin : XF → Bool
  | .val _ => true
  | _ => false

/-- A cooccurrence partition `(Nxx, Nx, Nxt, N)` as the loaders receive it:
`Nxx` is the partition's count matrix (`rows × cols`), `Nx` the global
row marginal restricted to the partition's rows, `Nxt` the global column
marginal restricted to its columns, `N` the global total.  Matrices are
total functions on ℕ; only indices below `rows`/`cols` are meaningful. -/
structure Cooc where
  rows : ℕ
  cols : ℕ
  Nxx : ℕ → ℕ → ℚ
  Nx : ℕ → ℚ
  Nxt : ℕ → ℚ
  N : ℚ

/-- One named tensor of a transformed batch: a scalar, a rational matrix,
or an extended-value matrix. -/
inductive TVal where
  | scalar : ℚ → TVal
  | matQ : (ℕ → ℕ → ℚ) → TVal
  | matX : (ℕ → ℕ → XF) → TVal

/-- A transformed batch: mapping from tensor-role names to tensors,
in the insertion order of the Python dict in the source. -/
abbrev Batch := List (String × TVal)

/-- `corpus_stats.calc_PMI`: `log N + log Nxx - log Nx - log Nxt`,
elementwise with `Nx`/`Nxt` broadcast (source corpus_stats.py:99). -/
def calc_PMI (F : Funs) (c : Cooc) : ℕ → ℕ → XF := fun i j =>
  xsub (xsub (xadd (flog F.L c.N) (flog F.L (c.Nxx i j))) (flog F.L (c.Nx i)))
    (flog F.L (c.Nxt j))

/-- The `M` tensor computed by `PPMILoader._load`:
`torch.clamp(calc_PMI(...), min=0)` (source loaders.py:71). -/
def ppmiM (F : Funs) (c : Cooc) : ℕ → ℕ → XF := fun i j =>
  clampMin0 (calc_PMI F c i j)

/-- `PPMILoader._load` (source loaders.py:67): returns the batch
`{'M': M}`. -/
def PPMILoader_load (F : Funs) (c : Cooc) : Batch :=
  [("M", .matX (ppmiM F c))]

/-- The pre-mask weights of `GloveLoader._load`:
`torch.clamp((Nxx / X_max).pow(alpha), max=1.)` (source loaders.py:98),
with `pw` the abstract interpretation of `x ↦ x ** alpha`. -/
def gloveWeights0 (pw : ℚ → ℚ) (X_max : ℚ) (c : Cooc) : ℕ → ℕ → ℚ :=
  fun i j => min (pw (c.Nxx i j / X_max)) 1

/-- The `M` tensor of `GloveLoader._load`: `torch.log(Nxx)` with cells
where `Nxx == 0` overwritten by `0` (source loaders.py:100). -/
def gloveM (F : Funs) (c : Cooc) : ℕ → ℕ → XF := fun i j =>
  if c.Nxx i j = 0 then .val 0 else flog F.L (c.Nxx i j)

/-- The final weights of `GloveLoader._load`: zero-count cells zeroed,
then everything multiplied by `2` (source loaders.py:103). -/
def gloveWeights (pw : ℚ → ℚ) (X_max : ℚ) (c : Cooc) : ℕ → ℕ → ℚ :=
  fun i j =>
    (if c.Nxx i j = 0 then 0 else gloveWeights0 pw X_max c i j) * 2

/-- `GloveLoader._load` (source loaders.py:94): returns the batch
`{'M': M, 'weights': weights}`. -/
def GloveLoader_load (F : Funs) (pw : ℚ → ℚ) (X_max : ℚ) (c : Cooc) :
    Batch :=
  [("M", .matX (gloveM F c)), ("weights", .matQ (gloveWeights pw X_max c))]

/-- `Pxx_independent = (Nx / N) * (Nxt / N)`, the local computed by
`MLELoader`, `MaxLikelihoodLoader`, `MaxPosteriorLoader` and `KLLoader`
(source loaders.py:151, bigram_loader.py:212,243,280). -/
def Pxx_independent (c : Cooc) : ℕ → ℕ → ℚ := fun i j =>
  (c.Nx i / c.N) * (c.Nxt j / c.N)

/-- `Pxx_data = Nxx / N` (source loaders.py:150, bigram_loader.py:211). -/
def Pxx_data (c : Cooc) : ℕ → ℕ → ℚ := fun i j => c.Nxx i j / c.N

/-- `MLELoader._load` (source loaders.py:146): returns the batch
`{'Pxx_data': ..., 'Pxx_independent': ...}` — note: no temperature key. -/
def MLELoader_load (c : Cooc) : Batch :=
  [("Pxx_data", .matQ (Pxx_data c)),
   ("Pxx_independent", .matQ (Pxx_independent c))]

/-- `MaxLikelihoodLoader._load` (source bigram_loader.py:207): returns the
batch `{'Pxx_data': ..., 'Pxx_independent': ..., 'temperature': ...}`. -/
def MaxLikelihoodLoader_load (temperature : ℚ) (c : Cooc) : Batch :=
  [("Pxx_data", .matQ (Pxx_data c)),
   ("Pxx_independent", .matQ (Pxx_independent c)),
   ("temperature", .scalar temperature)]

/-- The flattened list `np.e**(pmi[Nxx>0])` built by
`corpus_stats.calc_exp_pmi_stats` (source corpus_stats.py:113-118):
the PMI matrix is computed by `calc_PMI`, restricted to cells with
`Nxx > 0` in row-major order, and exponentiated. -/
def expPmiList (F : Funs) (c : Cooc) : List ℚ :=
  (List.range c.rows).flatMap (fun i =>
    ((List.range c.cols).filter (fun j => decide (0 < c.Nxx i j))).map
      (fun j => F.E (toQ (calc_PMI F c i j))))

/-- `torch.mean` of a flat list of values. -/
def listMean (l : List ℚ) : ℚ := l.sum / (l.length : ℚ)

/-- `torch.std` of a flat list of values: the square root of the
Bessel-corrected sample variance (torch default `unbiased=True`). -/
def listStd (S : ℚ → ℚ) (l : List ℚ) : ℚ :=
  S ((l.map (fun x => (x - listMean l) ^ 2)).sum / ((l.length : ℚ) - 1))

/-- `corpus_stats.calc_exp_pmi_stats` (source corpus_stats.py:113):
mean and standard deviation of `exp(PMI)` over cells with `Nxx > 0`
of the partition it is handed. -/
def calc_exp_pmi_stats (F : Funs) (c : Cooc) : ℚ × ℚ :=
  (listMean (expPmiList F c), listStd F.S (expPmiList F c))

/-- `corpus_stats.calc_prior_beta_params` (source corpus_stats.py:104):
moment-matched Beta prior from `exp_mean`, `exp_std` and
`Pxx_independent`.  The cooccurrence argument is unpacked but unused in
the source, mirrored here. -/
def calc_prior_beta_params (_c : Cooc) (exp_mean exp_std : ℚ)
    (Pxx_ind : ℕ → ℕ → ℚ) : (ℕ → ℕ → ℚ) × (ℕ → ℕ → ℚ) :=
  let mean := fun i j => exp_mean * Pxx_ind i j
  let std := fun i j => exp_std * Pxx_ind i j
  let alpha := fun i j =>
    mean i j * (mean i j * (1 - mean i j) / std i j ^ 2 - 1)
  let beta := fun i j => (1 - mean i j) * alpha i j / mean i j
  (alpha, beta)

/-- The `(alpha, beta)` pair computed inside `MaxPosteriorLoader._load`
and `KLLoader._load`: both call `calc_exp_pmi_stats` on the current
partition and feed the result to `calc_prior_beta_params` (source
bigram_loader.py:244-246 and 281-283, identical call chains). -/
def mp_prior (F : Funs) (c : Cooc) : (ℕ → ℕ → ℚ) × (ℕ → ℕ → ℚ) :=
  calc_prior_beta_params c (calc_exp_pmi_stats F c).1
    (calc_exp_pmi_stats F c).2 (Pxx_independent c)

/-- `N_posterior = N + alpha + beta - 1` (source bigram_loader.py:247,284). -/
def mp_N_posterior (F : Funs) (c : Cooc) : ℕ → ℕ → ℚ := fun i j =>
  c.N + (mp_prior F c).1 i j + (mp_prior F c).2 i j - 1

/-- `Pxx_posterior = (Nxx + alpha) / N_posterior` (source
bigram_loader.py:248). -/
def mp_Pxx_posterior (F : Funs) (c : Cooc) : ℕ → ℕ → ℚ := fun i j =>
  (c.Nxx i j + (mp_prior F c).1 i j) / mp_N_posterior F c i j

/-- `MaxPosteriorLoader._load` (source bigram_loader.py:239). -/
def MaxPosteriorLoader_load (F : Funs) (temperature : ℚ) (c : Cooc) :
    Batch :=
  [("N", .scalar c.N),
   ("N_posterior", .matQ (mp_N_posterior F c)),
   ("Pxx_posterior", .matQ (mp_Pxx_posterior F c)),
   ("Pxx_independent", .matQ (Pxx_independent c)),
   ("temperature", .scalar temperature)]

/-- `a = Nxx + alpha` in `KLLoader._load` (source bigram_loader.py:285). -/
def kl_a (F : Funs) (c : Cooc) : ℕ → ℕ → ℚ := fun i j =>
  c.Nxx i j + (mp_prior F c).1 i j

/-- `b = N - Nxx + beta` in `KLLoader._load` (source
bigram_loader.py:286). -/
def kl_b (F : Funs) (c : Cooc) : ℕ → ℕ → ℚ := fun i j =>
  c.N - c.Nxx i j + (mp_prior F c).2 i j

/-- `digamma_a = psi(a) - psi(a+b)` (source bigram_loader.py:287). -/
def kl_digamma_a (F : Funs) (c : Cooc) : ℕ → ℕ → ℚ := fun i j =>
  F.psi (kl_a F c i j) - F.psi (kl_a F c i j + kl_b F c i j)

/-- `digamma_b = psi(b) - psi(a+b)` (source bigram_loader.py:288). -/
def kl_digamma_b (F : Funs) (c : Cooc) : ℕ → ℕ → ℚ := fun i j =>
  F.psi (kl_b F c i j) - F.psi (kl_a F c i j + kl_b F c i j)

/-- `KLLoader._load` (source bigram_loader.py:276). -/
def KLLoader_load (F : Funs) (temperature : ℚ) (c : Cooc) : Batch :=
  [("digamma_a", .matQ (kl_digamma_a F c)),
   ("digamma_b", .matQ (kl_digamma_b F c)),
   ("N", .scalar c.N),
   ("N_posterior", .matQ (mp_N_posterior F c)),
   ("Pxx_independent", .matQ (Pxx_independent c)),
   ("temperature", .scalar temperature)]

/-! Spec-side definitions, written from the spec's formulas (section 4.4
of the spec and the claims), to be compared with the embedded code. -/

/-- Spec: the list of `exp(PMI)` values over cells with `Nxx > 0`, with
`PMI = log N + log Nxx - log Nx - log Nxt` written directly as a finite
rational expression. -/
def specExpPmiList (F : Funs) (c : Cooc) : List ℚ :=
  (List.range c.rows).flatMap (fun i =>
    ((List.range c.cols).filter (fun j => decide (0 < c.Nxx i j))).map
      (fun j =>
        F.E (F.L c.N + F.L (c.Nxx i j) - F.L (c.Nx i) - F.L (c.Nxt j))))

/-- Spec: `exp_mean = mean(exp(PMI))` over `Nxx > 0` cells. -/
def specExpMean (F : Funs) (c : Cooc) : ℚ := listMean (specExpPmiList F c)

/-- Spec: `exp_std = std(exp(PMI))` over `Nxx > 0` cells. -/
def specExpStd (F : Funs) (c : Cooc) : ℚ := listStd F.S (specExpPmiList F c)

/-- Spec: `mean = exp_mean * Pxx_independent`. -/
def specMean (F : Funs) (c : Cooc) : ℕ → ℕ → ℚ := fun i j =>
  specExpMean F c * ((c.Nx i / c.N) * (c.Nxt j / c.N))

/-- Spec: `std = exp_std * Pxx_independent`. -/
def specStd (F : Funs) (c : Cooc) : ℕ → ℕ → ℚ := fun i j =>
  specExpStd F c * ((c.Nx i / c.N) * (c.Nxt j / c.N))

/-- Spec: `alpha = mean * (mean * (1 - mean) / std^2 - 1)`. -/
def specAlpha (F : Funs) (c : Cooc) : ℕ → ℕ → ℚ := fun i j =>
  specMean F c i j *
    (specMean F c i j * (1 - specMean F c i j) / specStd F c i j ^ 2 - 1)

/-- Spec: `beta = (1 - mean) * alpha / mean`. -/
def specBeta (F : Funs) (c : Cooc) : ℕ → ℕ → ℚ := fun i j =>
  (1 - specMean F c i j) * specAlpha F c i j / specMean F c i j

/-- Spec: `N_posterior = N + alpha + beta - 1`. -/
def specNPosterior (F : Funs) (c : Cooc) : ℕ → ℕ → ℚ := fun i j =>
  c.N + specAlpha F c i j + specBeta F c i j - 1

/-- Spec: `Pxx_posterior = (Nxx + alpha) / N_posterior`. -/
def specPxxPosterior (F : Funs) (c : Cooc) : ℕ → ℕ → ℚ := fun i j =>
  (c.Nxx i j + specAlpha F c i j) / specNPosterior F c i j

/-- Spec: the Max-Posterior output batch. -/
def specMaxPosteriorBatch (F : Funs) (temperature : ℚ) (c : Cooc) : Batch :=
  [("N", .scalar c.N),
   ("N_posterior", .matQ (specNPosterior F c)),
   ("Pxx_posterior", .matQ (specPxxPosterior F c)),
   ("Pxx_independent", .matQ (fun i j => (c.Nx i / c.N) * (c.Nxt j / c.N))),
   ("temperature", .scalar temperature)]

/-- Spec: `a = Nxx + alpha` with the same Beta prior as Max-Posterior. -/
def specKLa (F : Funs) (c : Cooc) : ℕ → ℕ → ℚ := fun i j =>
  c.Nxx i j + specAlpha F c i j

/-- Spec: `b = N - Nxx + beta` with the same Beta prior as Max-Posterior. -/
def specKLb (F : Funs) (c : Cooc) : ℕ → ℕ → ℚ := fun i j =>
  c.N - c.Nxx i j + specBeta F c i j

/-- Spec: the KL output batch: `digamma_a = psi(a) - psi(a+b)`,
`digamma_b = psi(b) - psi(a+b)`, together with `N`, `N_posterior`,
`Pxx_independent` and `temperature`. -/
def specKLBatch (F : Funs) (temperature : ℚ) (c : Cooc) : Batch :=
  [("digamma_a", .matQ (fun i j =>
      F.psi (specKLa F c i j) - F.psi (specKLa F c i j + specKLb F c i j))),
   ("digamma_b", .matQ (fun i j =>
      F.psi (specKLb F c i j) - F.psi (specKLa F c i j + specKLb F c i j))),
   ("N", .scalar c.N),
   ("N_posterior", .matQ (specNPosterior F c)),
   ("Pxx_independent", .matQ (fun i j => (c.Nx i / c.N) * (c.Nxt j / c.N))),
   ("temperature", .scalar temperature)]

/-- Modelled from the spec: `hilbert/shards.py` (the `Shards` partition
scheme) is not under src/.  Per spec sections 3 and 4.1, a PartitionId of
factor `f` at offsets `(i, j)` is a pair of strided selectors: it selects
rows `i, i+f, i+2f, ...` and columns `j, j+f, ...` of the matrix, the
`Nx` marginal restricted to the selected rows, the `Nxt` marginal
restricted to the selected columns, and leaves the global total `N`
unchanged. -/
def shardSlice (c : Cooc) (f i j : ℕ) : Cooc where
  rows := (c.rows + f - 1 - i) / f
  cols := (c.cols + f - 1 - j) / f
  Nxx := fun a b => c.Nxx (i + a * f) (j + b * f)
  Nx := fun a => c.Nx (i + a * f)
  Nxt := fun b => c.Nxt (j + b * f)
  N := c.N

/-- A full 2×2 cooccurrence matrix `Nxx=[[1,2],[3,4]]` with its global
marginals, used to exhibit shard-dependence of the prior moments. -/
def cfull : Cooc where
  rows := 2
  cols := 2
  Nxx := fun i j => if i = 0 then (if j = 0 then 1 else 2)
    else (if j = 0 then 3 else 4)
  Nx := fun i => if i = 0 then 3 else 7
  Nxt := fun j => if j = 0 then 4 else 6
  N := 10

/-- The spec's PPMI test fixture: `Nxx=[[0,4],[4,2]]`, `Nx=[[4],[6]]`,
`Nxt=[[4,6]]`, `N=10`. -/
def c2fix : Cooc where
  rows := 2
  cols := 2
  Nxx := fun i j => if i = 0 then (if j = 0 then 0 else 4)
    else (if j = 0 then 4 else 2)
  Nx := fun i => if i = 0 then 4 else 6
  Nxt := fun j => if j = 0 then 4 else 6
  N := 10

/-- A concrete interpretation of the transcendental functions, used to
instantiate hypotheses in witnesses and counterexamples. -/
def F1 : Funs where
  L := id
  E := id
  S := id
  psi := id

/-! Error behavior (spec section 4.4 failure modes / claim C9).  The
input domain here is full IEEE tensors (`CoocX`), so that non-finite
inputs are expressible. -/

/-- The error taxonomy the spec postulates for the transforms. -/
inductive LoaderError where
  | NumericError : LoaderError
  | ShapeError : LoaderError
deriving DecidableEq

/-- A cooccurrence partition whose tensors may hold non-finite values. -/
structure CoocX where
  rows : ℕ
  cols : ℕ
  Nxx : ℕ → ℕ → XF
  Nx : ℕ → XF
  Nxt : ℕ → XF
  N : XF

/-- `corpus_stats.calc_PMI` on IEEE tensors. -/
def calc_PMI_x (F : Funs) (c : CoocX) : ℕ → ℕ → XF := fun i j =>
  xsub (xsub (xadd (xlog F.L c.N) (xlog F.L (c.Nxx i j))) (xlog F.L (c.Nx i)))
    (xlog F.L (c.Nxt j))

/-- `PPMILoader._load` on IEEE tensors: clamp then wrap as `{'M': M}`. -/
def PPMILoader_load_x (F : Funs) (c : CoocX) : Batch :=
  [("M", .matX (fun i j => clampMin0 (calc_PMI_x F c i j)))]

/-- The result of running `PPMILoader._load`: the source body contains no
`raise` and no validation, so it always returns its batch. -/
def PPMILoader_run (F : Funs) (c : CoocX) : Except LoaderError Batch :=
  .ok (PPMILoader_load_x F c)

/-- The result of running `GloveLoader._load` (no `raise` in source). -/
def GloveLoader_run (F : Funs) (pw : ℚ → ℚ) (X_max : ℚ) (c : Cooc) :
    Except LoaderError Batch :=
  .ok (GloveLoader_load F pw X_max c)

/-- The result of running `MLELoader._load` (no `raise` in source). -/
def MLELoader_run (c : Cooc) : Except LoaderError Batch :=
  .ok (MLELoader_load c)

/-- The result of running `MaxLikelihoodLoader._load` (no `raise`). -/
def MaxLikelihoodLoader_run (temperature : ℚ) (c : Cooc) :
    Except LoaderError Batch :=
  .ok (MaxLikelihoodLoader_load temperature c)

/-- The result of running `MaxPosteriorLoader._load` (no `raise`). -/
def MaxPosteriorLoader_run (F : Funs) (temperature : ℚ) (c : Cooc) :
    Except LoaderError Batch :=
  .ok (MaxPosteriorLoader_load F temperature c)

/-- The result of running `KLLoader._load` (no `raise` in source). -/
def KLLoader_run (F : Funs) (temperature : ℚ) (c : Cooc) :
    Except LoaderError Batch :=
  .ok (KLLoader_load F temperature c)

/-- Does some input tensor cell of the partition hold a non-finite
value? -/
def containsNonFinite (c : CoocX) : Bool :=
  ((List.range c.rows).any (fun i =>
    (List.range c.cols).any (fun j => !isFin (c.Nxx i j)))) ||
  ((List.range c.rows).any (fun i => !isFin (c.Nx i))) ||
  ((List.range c.cols).any (fun j => !isFin (c.Nxt j))) ||
  !isFin c.N

/-- A 1×1 partition whose `Nxx` cell is `+inf`: a corrupted, non-finite
input. -/
def cX9 : CoocX where
  rows := 1
  cols := 1
  Nxx := fun _ _ => .posinf
  Nx := fun _ => .val 3
  Nxt := fun _ => .val 4
  N := .val 10

/-! The preload pipeline (claim C7).  `BigramLoaderBase._preload_iter`
(source bigram_loader.py:73) enumerates the sector sequence, keeps the
sectors whose index is congruent to this worker's `loader_id` modulo
`num_loaders`, and for each kept sector yields one item per shard id.
The sector sequence, the shard-id sequence and the item construction
(`BigramSector.load` / `load_relative_shard`, whose module is not under
src/) are abstract parameters; the claim only concerns the assignment
and coverage logic, which is in src/. -/

/-- `BigramLoaderBase._preload_iter` for one worker: the list of items
the worker with identity `loader_id` yields. -/
def preload_iter {σ τ ι : Type} (num_loaders loader_id : ℕ)
    (sectors : List σ) (shard_ids : List τ) (item : σ → τ → ι) : List ι :=
  ((sectors.enum.filter (fun p => p.1 % num_loaders == loader_id)).flatMap
    (fun p => shard_ids.map (item p.2)))

/-! The batch iterator (claims C8 and C10): `ModelBatchLoader`
(source loaders.py:6). -/

/-- The state of a `ModelBatchLoader`: the preloaded raw partitions (all
pulled at construction), the single iteration cursor (`None` until the
first `__iter__`), and the two stages applied on demand by `__next__`
(`preloader.prepare` and the subclass `_load`). -/
structure ModelBatchLoader (P Q B : Type) where
  preloaded_batches : List P
  crt_batch_id : Option ℤ
  prepare : P → Q
  loadFn : Q → B

/-- `ModelBatchLoader.__iter__` (source loaders.py:23): sets the cursor
to `-1` and returns the loader itself (same object, same fields, only
the cursor changed). -/
def loader_iter {P Q B : Type} (s : ModelBatchLoader P Q B) :
    ModelBatchLoader P Q B :=
  { s with crt_batch_id := some (-1) }

/-- Outcome of one `__next__` call: a yielded batch, the `StopIteration`
signal, or any other Python exception (`TypeError`/`IndexError`). -/
inductive NextOutcome (B S : Type) where
  | yielded : B → S → NextOutcome B S
  | stopIteration : S → NextOutcome B S
  | raisesOther : NextOutcome B S

/-- Python list indexing with an integer index (negative indices wrap). -/
def pyIdx {α : Type} (l : List α) (k : ℤ) : Option α :=
  if 0 ≤ k then l.get? k.toNat
  else if (-k).toNat ≤ l.length then l.get? (l.length - (-k).toNat)
  else none

/-- `ModelBatchLoader.__next__` (source loaders.py:28): increments the
cursor, raises `StopIteration` past the end, otherwise prepares and
transforms the preloaded partition at the cursor — the transform is
re-applied on every call, nothing is cached. -/
def loader_next {P Q B : Type} (s : ModelBatchLoader P Q B) :
    NextOutcome B (ModelBatchLoader P Q B) :=
  match s.crt_batch_id with
  | none => .raisesOther
  | some k =>
    let s' := { s with crt_batch_id := some (k + 1) }
    if (s.preloaded_batches.length : ℤ) ≤ k + 1 then .stopIteration s'
    else
      match pyIdx s.preloaded_batches (k + 1) with
      | some p => .yielded (s.loadFn (s.prepare p)) s'
      | none => .raisesOther

/-- Drain up to `fuel` batches by repeated `__next__` calls. -/
def collectN {P Q B : Type} : ModelBatchLoader P Q B → ℕ → List B
  | _, 0 => []
  | s, fuel + 1 =>
    match loader_next s with
    | .yielded b s' => b :: collectN s' fuel
    | _ => []

/-- The loader state after `n` `__next__` calls. -/
def stateAfter {P Q B : Type} : ModelBatchLoader P Q B → ℕ →
    ModelBatchLoader P Q B
  | s, 0 => s
  | s, fuel + 1 =>
    match loader_next s with
    | .yielded _ s' => stateAfter s' fuel
    | .stopIteration s' => s'
    | .raisesOther => s

/-- A concrete loader over one preloaded item, for witnesses. -/
def loaderFix : ModelBatchLoader ℕ ℕ ℕ where
  preloaded_batches := [5]
  crt_batch_id := none
  prepare := id
  loadFn := id

/-! Lemmas. -/

lemma flog_of_pos (L : ℚ → ℚ) {q : ℚ} (h : 0 < q) : flog L q = .val (L q) := by
  unfold flog
  rw [if_neg (ne_of_gt h), if_neg (not_lt.mpr h.le)]

lemma flog_of_zero (L : ℚ → ℚ) : flog L 0 = .neginf := by
  simp [flog]

lemma calc_PMI_of_pos (F : Funs) (c : Cooc) {i j : ℕ} (hN : 0 < c.N)
    (hNx : 0 < c.Nx i) (hNxt : 0 < c.Nxt j) (hxx : 0 < c.Nxx i j) :
    calc_PMI F c i j =
      .val (F.L c.N + F.L (c.Nxx i j) - F.L (c.Nx i) - F.L (c.Nxt j)) := by
  unfold calc_PMI
  rw [flog_of_pos F.L hN, flog_of_pos F.L hxx, flog_of_pos F.L hNx,
    flog_of_pos F.L hNxt]
  rfl

lemma calc_PMI_of_zero (F : Funs) (c : Cooc) {i j : ℕ} (hN : 0 < c.N)
    (hNx : 0 < c.Nx i) (hNxt : 0 < c.Nxt j) (hxx : c.Nxx i j = 0) :
    calc_PMI F c i j = .neginf := by
  unfold calc_PMI
  rw [flog_of_pos F.L hN, flog_of_pos F.L hNx, flog_of_pos F.L hNxt, hxx,
    flog_of_zero]
  rfl

/-- C2: For every input partition with `Nxx ≥ 0` elementwise, `N > 0` and
strictly positive marginals `Nx`, `Nxt`, the PPMI transform outputs
exactly the key `M`, with `M = max(0, log N + log Nxx - log Nx - log Nxt)`
elementwise where cells with `Nxx = 0` yield `0` (the `-inf` from `log 0`
is clamped by the max); on the spec fixture, cell `(0,0)` is `0` and cell
`(1,1)` equals `max(0, ln 10 + ln 2 - ln 6 - ln 6)` for every
interpretation of `ln`. -/
theorem ppmi_transform_c2 (F : Funs) (c : Cooc)
    (hN : 0 < c.N)
    (hNx : ∀ i, i < c.rows → 0 < c.Nx i)
    (hNxt : ∀ j, j < c.cols → 0 < c.Nxt j)
    (hNxx : ∀ i, i < c.rows → ∀ j, j < c.cols → 0 ≤ c.Nxx i j) :
    PPMILoader_load F c = [("M", .matX (ppmiM F c))] ∧
    (∀ i, i < c.rows → ∀ j, j < c.cols →
      ppmiM F c i j =
        if c.Nxx i j = 0 then .val 0
        else .val (max 0
          (F.L c.N + F.L (c.Nxx i j) - F.L (c.Nx i) - F.L (c.Nxt j)))) ∧
    (∀ G : Funs, ppmiM G c2fix 0 0 = .val 0 ∧
      ppmiM G c2fix 1 1 = .val (max 0 (G.L 10 + G.L 2 - G.L 6 - G.L 6))) := by
  refine ⟨rfl, ?_, ?_⟩
  · intro i hi j hj
    by_cases hxx : c.Nxx i j = 0
    · rw [if_pos hxx]
      unfold ppmiM
      rw [calc_PMI_of_zero F c hN (hNx i hi) (hNxt j hj) hxx]
      rfl
    · rw [if_neg hxx]
      have hpos : 0 < c.Nxx i j := lt_of_le_of_ne (hNxx i hi j hj) (Ne.symm hxx)
      unfold ppmiM
      rw [calc_PMI_of_pos F c hN (hNx i hi) (hNxt j hj) hpos]
      unfold clampMin0
      rw [max_comm]
  · intro G
    constructor
    · have h00 : c2fix.Nxx 0 0 = 0 := by norm_num [c2fix]
      unfold ppmiM
      rw [calc_PMI_of_zero G c2fix (by norm_num [c2fix])
        (by norm_num [c2fix]) (by norm_num [c2fix]) h00]
      rfl
    · have h11 : c2fix.Nxx 1 1 = 2 := by norm_num [c2fix]
      have hx1 : c2fix.Nx 1 = 6 := by norm_num [c2fix]
      have hxt1 : c2fix.Nxt 1 = 6 := by norm_num [c2fix]
      have hN10 : c2fix.N = 10 := rfl
      unfold ppmiM
      rw [calc_PMI_of_pos G c2fix (by norm_num [c2fix])
        (by rw [hx1]; norm_num) (by rw [hxt1]; norm_num)
        (by rw [h11]; norm_num), h11, hx1, hxt1, hN10]
      simp [clampMin0, max_comm]

/-- Witness for C2 at the spec fixture and a concrete interpretation. -/
theorem ppmi_transform_c2_witness :
    ppmiM F1 c2fix 1 1 = .val (max 0 (F1.L 10 + F1.L 2 - F1.L 6 - F1.L 6)) :=
  ((ppmi_transform_c2 F1 c2fix (by norm_num [c2fix])
    (by intro i _; by_cases h : i = 0 <;> simp [c2fix, h])
    (by intro j _; by_cases h : j = 0 <;> simp [c2fix, h])
    (by intro i _ j _
        by_cases h : i = 0 <;> by_cases h2 : j = 0 <;>
          simp [c2fix, h, h2])).2.2 F1).2

/-- C3: For every input partition (with nonnegative counts) and parameters
`X_max > 0` and `alpha`, the GloVe transform outputs exactly the keys `M`
and `weights`, with elementwise `M = log Nxx` and
`weights = min(1, (Nxx/X_max)^alpha) * 2`, except that every cell with
`Nxx == 0` gets both `M = 0` and `weights = 0` regardless of the other
inputs. -/
theorem glove_transform_c3 (F : Funs) (pw : ℚ → ℚ) (X_max : ℚ) (c : Cooc)
    (_hX : 0 < X_max)
    (hNxx : ∀ i, i < c.rows → ∀ j, j < c.cols → 0 ≤ c.Nxx i j) :
    GloveLoader_load F pw X_max c =
      [("M", .matX (gloveM F c)),
       ("weights", .matQ (gloveWeights pw X_max c))] ∧
    (∀ i, i < c.rows → ∀ j, j < c.cols →
      (c.Nxx i j = 0 →
        gloveM F c i j = .val 0 ∧ gloveWeights pw X_max c i j = 0) ∧
      (c.Nxx i j ≠ 0 →
        gloveM F c i j = .val (F.L (c.Nxx i j)) ∧
        gloveWeights pw X_max c i j =
          min 1 (pw (c.Nxx i j / X_max)) * 2)) := by
  refine ⟨rfl, ?_⟩
  intro i hi j hj
  constructor
  · intro hz
    refine ⟨?_, ?_⟩
    · unfold gloveM
      rw [if_pos hz]
    · unfold gloveWeights
      rw [if_pos hz, zero_mul]
  · intro hnz
    have hpos : 0 < c.Nxx i j := lt_of_le_of_ne (hNxx i hi j hj) (Ne.symm hnz)
    refine ⟨?_, ?_⟩
    · unfold gloveM
      rw [if_neg hnz, flog_of_pos F.L hpos]
    · unfold gloveWeights gloveWeights0
      rw [if_neg hnz, min_comm]

/-- Witness for C3 at the spec fixture with a concrete interpretation,
`X_max = 100` and `pw` instantiated by the identity. -/
theorem glove_transform_c3_witness :
    (c2fix.Nxx 0 0 = 0 →
      gloveM F1 c2fix 0 0 = .val 0 ∧ gloveWeights id 100 c2fix 0 0 = 0) ∧
    (c2fix.Nxx 0 0 ≠ 0 →
      gloveM F1 c2fix 0 0 = .val (F1.L (c2fix.Nxx 0 0)) ∧
      gloveWeights id 100 c2fix 0 0 =
        min 1 (id (c2fix.Nxx 0 0 / 100)) * 2) :=
  (glove_transform_c3 F1 id 100 c2fix (by norm_num)
    (by intro i _ j _
        by_cases h : i = 0 <;> by_cases h2 : j = 0 <;>
          simp [c2fix, h, h2])).2 0 (by norm_num [c2fix]) 0
    (by norm_num [c2fix])

/-- C6, counterexample: the claim says the Max-Likelihood transform's
output has exactly the keys `Pxx_data`, `Pxx_independent`, `temperature`,
citing both `MLELoader._load` (loaders.py) and `MaxLikelihoodLoader._load`
(bigram_loader.py); but `MLELoader._load` returns only
`{'Pxx_data': ..., 'Pxx_independent': ...}` with no temperature key. -/
theorem mle_keys_c6_counterexample :
    (MLELoader_load c2fix).map Prod.fst ≠
      ["Pxx_data", "Pxx_independent", "temperature"] := by
  decide

/-- C6 (amended): `MaxLikelihoodLoader._load` (bigram_loader.py) outputs
exactly the keys `Pxx_data`, `Pxx_independent`, `temperature` with
`Pxx_data = Nxx/N` and `Pxx_independent = (Nx/N)*(Nxt/N)` elementwise,
while `MLELoader._load` (loaders.py) outputs only the two matrix keys
`Pxx_data` and `Pxx_independent` (no temperature), with the same
formulas. -/
theorem mle_transform_c6 (temperature : ℚ) (c : Cooc) :
    MaxLikelihoodLoader_load temperature c =
      [("Pxx_data", .matQ (fun i j => c.Nxx i j / c.N)),
       ("Pxx_independent",
        .matQ (fun i j => (c.Nx i / c.N) * (c.Nxt j / c.N))),
       ("temperature", .scalar temperature)] ∧
    (MaxLikelihoodLoader_load temperature c).map Prod.fst =
      ["Pxx_data", "Pxx_independent", "temperature"] ∧
    MLELoader_load c =
      [("Pxx_data", .matQ (fun i j => c.Nxx i j / c.N)),
       ("Pxx_independent",
        .matQ (fun i j => (c.Nx i / c.N) * (c.Nxt j / c.N)))] ∧
    (MLELoader_load c).map Prod.fst = ["Pxx_data", "Pxx_independent"] :=
  ⟨rfl, rfl, rfl, rfl⟩

/-- C9, counterexample: the claim says every transform raises
`NumericError` when an input tensor holds non-finite values; but the
transform bodies contain no validation and no `raise` at all (the only
`raise` in loaders.py is the `StopIteration` of `__next__`): on the
corrupted partition `cX9`, whose `Nxx` holds `+inf`, the PPMI transform
returns its batch instead of an error. -/
theorem transforms_validate_c9_counterexample :
    (PPMILoader_run F1 cX9).isOk = true ∧ containsNonFinite cX9 = true :=
  ⟨rfl, by decide⟩

/-- C9 (amended): the statistical transforms perform no input validation:
none of them ever raises `NumericError` or `ShapeError` — non-finite
inputs flow through the arithmetic — and in particular on well-shaped
finite inputs no transform raises either error (this converse half of
the original claim does hold). -/
theorem transforms_never_raise_c9 (F : Funs) (pw : ℚ → ℚ)
    (X_max temperature : ℚ) (cx : CoocX) (c : Cooc) :
    PPMILoader_run F cx = .ok (PPMILoader_load_x F cx) ∧
    GloveLoader_run F pw X_max c = .ok (GloveLoader_load F pw X_max c) ∧
    MLELoader_run c = .ok (MLELoader_load c) ∧
    MaxLikelihoodLoader_run temperature c =
      .ok (MaxLikelihoodLoader_load temperature c) ∧
    MaxPosteriorLoader_run F temperature c =
      .ok (MaxPosteriorLoader_load F temperature c) ∧
    KLLoader_run F temperature c = .ok (KLLoader_load F temperature c) :=
  ⟨rfl, rfl, rfl, rfl, rfl, rfl⟩

lemma expPmiList_eq_spec (F : Funs) (c : Cooc) (hN : 0 < c.N)
    (hNx : ∀ i, i < c.rows → 0 < c.Nx i)
    (hNxt : ∀ j, j < c.cols → 0 < c.Nxt j) :
    expPmiList F c = specExpPmiList F c := by
  unfold expPmiList specExpPmiList
  apply List.flatMap_congr
  intro i hi
  apply List.map_congr_left
  intro j hj
  have hj' := List.mem_filter.mp hj
  have hpos : 0 < c.Nxx i j := of_decide_eq_true hj'.2
  rw [calc_PMI_of_pos F c hN (hNx i (List.mem_range.mp hi))
    (hNxt j (List.mem_range.mp hj'.1)) hpos]
  rfl

lemma calc_exp_pmi_stats_eq_spec (F : Funs) (c : Cooc) (hN : 0 < c.N)
    (hNx : ∀ i, i < c.rows → 0 < c.Nx i)
    (hNxt : ∀ j, j < c.cols → 0 < c.Nxt j) :
    calc_exp_pmi_stats F c = (specExpMean F c, specExpStd F c) := by
  unfold calc_exp_pmi_stats specExpMean specExpStd
  rw [expPmiList_eq_spec F c hN hNx hNxt]

lemma mp_prior_eq_spec (F : Funs) (c : Cooc) (hN : 0 < c.N)
    (hNx : ∀ i, i < c.rows → 0 < c.Nx i)
    (hNxt : ∀ j, j < c.cols → 0 < c.Nxt j) :
    mp_prior F c = (specAlpha F c, specBeta F c) := by
  unfold mp_prior
  rw [calc_exp_pmi_stats_eq_spec F c hN hNx hNxt]
  unfold calc_prior_beta_params specAlpha specBeta specMean specStd
    Pxx_independent
  rfl

/-- C4: For every input partition on which PMI is well defined (`N > 0`,
positive marginals), the Max-Posterior transform moment-matches the Beta
prior with `mean = exp_mean * Pxx_independent`,
`std = exp_std * Pxx_independent` (where `exp_mean`/`exp_std` are the
mean and standard deviation of `exp(PMI)` over the cells with
`Nxx > 0`), `alpha = mean*(mean*(1-mean)/std^2 - 1)`,
`beta = (1-mean)*alpha/mean`, and outputs
`N_posterior = N + alpha + beta - 1` and
`Pxx_posterior = (Nxx + alpha)/N_posterior`: its batch equals the batch
assembled from the spec's formulas. -/
theorem maxposterior_transform_c4 (F : Funs) (temperature : ℚ) (c : Cooc)
    (hN : 0 < c.N)
    (hNx : ∀ i, i < c.rows → 0 < c.Nx i)
    (hNxt : ∀ j, j < c.cols → 0 < c.Nxt j) :
    MaxPosteriorLoader_load F temperature c =
      specMaxPosteriorBatch F temperature c ∧
    calc_exp_pmi_stats F c = (specExpMean F c, specExpStd F c) := by
  have hp := mp_prior_eq_spec F c hN hNx hNxt
  have h1 : mp_N_posterior F c = specNPosterior F c := by
    unfold mp_N_posterior specNPosterior
    rw [hp]
  have h2 : mp_Pxx_posterior F c = specPxxPosterior F c := by
    unfold mp_Pxx_posterior specPxxPosterior
    rw [hp, h1]
  refine ⟨?_, calc_exp_pmi_stats_eq_spec F c hN hNx hNxt⟩
  unfold MaxPosteriorLoader_load specMaxPosteriorBatch
  rw [h1, h2]
  rfl

/-- Witness for C4 at the spec fixture and a concrete interpretation. -/
theorem maxposterior_transform_c4_witness :
    MaxPosteriorLoader_load F1 1 c2fix = specMaxPosteriorBatch F1 1 c2fix :=
  (maxposterior_transform_c4 F1 1 c2fix (by norm_num [c2fix])
    (by intro i _; by_cases h : i = 0 <;> simp [c2fix, h])
    (by intro j _; by_cases h : j = 0 <;> simp [c2fix, h])).1

/-- C5: For every input partition on which PMI is well defined, the KL
transform uses the same Beta prior `(alpha, beta)` as the Max-Posterior
transform (both batches carry the identical `N_posterior` tensor built
from it), sets `a = Nxx + alpha`, `b = N - Nxx + beta`, and outputs
`digamma_a = psi(a) - psi(a+b)` and `digamma_b = psi(b) - psi(a+b)`
together with `N`, `N_posterior`, `Pxx_independent` and `temperature`:
its batch equals the batch assembled from the spec's formulas. -/
theorem kl_transform_c5 (F : Funs) (temperature : ℚ) (c : Cooc)
    (hN : 0 < c.N)
    (hNx : ∀ i, i < c.rows → 0 < c.Nx i)
    (hNxt : ∀ j, j < c.cols → 0 < c.Nxt j) :
    KLLoader_load F temperature c = specKLBatch F temperature c ∧
    ("N_posterior", TVal.matQ (mp_N_posterior F c)) ∈
      KLLoader_load F temperature c ∧
    ("N_posterior", TVal.matQ (mp_N_posterior F c)) ∈
      MaxPosteriorLoader_load F temperature c ∧
    kl_a F c = specKLa F c ∧ kl_b F c = specKLb F c := by
  have hp := mp_prior_eq_spec F c hN hNx hNxt
  have ha : kl_a F c = specKLa F c := by
    unfold kl_a specKLa
    rw [hp]
  have hb : kl_b F c = specKLb F c := by
    unfold kl_b specKLb
    rw [hp]
  have h1 : mp_N_posterior F c = specNPosterior F c := by
    unfold mp_N_posterior specNPosterior
    rw [hp]
  refine ⟨?_, ?_, ?_, ha, hb⟩
  · unfold KLLoader_load specKLBatch
    have hda : kl_digamma_a F c = fun i j =>
        F.psi (specKLa F c i j) -
          F.psi (specKLa F c i j + specKLb F c i j) := by
      unfold kl_digamma_a
      rw [ha, hb]
    have hdb : kl_digamma_b F c = fun i j =>
        F.psi (specKLb F c i j) -
          F.psi (specKLa F c i j + specKLb F c i j) := by
      unfold kl_digamma_b
      rw [ha, hb]
    rw [hda, hdb, h1]
    rfl
  · unfold KLLoader_load
    exact List.mem_cons_of_mem _ (List.mem_cons_of_mem _
      (List.mem_cons_of_mem _ (List.mem_cons_self _ _)))
  · unfold MaxPosteriorLoader_load
    exact List.mem_cons_of_mem _ (List.mem_cons_self _ _)

/-- Witness for C5 at the spec fixture and a concrete interpretation. -/
theorem kl_transform_c5_witness :
    KLLoader_load F1 1 c2fix = specKLBatch F1 1 c2fix :=
  (kl_transform_c5 F1 1 c2fix (by norm_num [c2fix])
    (by intro i _; by_cases h : i = 0 <;> simp [c2fix, h])
    (by intro j _; by_cases h : j = 0 <;> simp [c2fix, h])).1

lemma exp_stats_of_shard00 :
    calc_exp_pmi_stats F1 (shardSlice cfull 2 0 0) = (4, 0) := by
  norm_num [calc_exp_pmi_stats, expPmiList, listMean, listStd, shardSlice,
    cfull, F1, calc_PMI, flog, toQ, xadd, xsub, List.range_succ]

lemma exp_stats_of_shard11 :
    calc_exp_pmi_stats F1 (shardSlice cfull 2 1 1) = (1, 0) := by
  norm_num [calc_exp_pmi_stats, expPmiList, listMean, listStd, shardSlice,
    cfull, F1, calc_PMI, flog, toQ, xadd, xsub, List.range_succ]

lemma exp_stats_differ :
    calc_exp_pmi_stats F1 (shardSlice cfull 2 0 0) ≠
      calc_exp_pmi_stats F1 (shardSlice cfull 2 1 1) := by
  rw [exp_stats_of_shard00, exp_stats_of_shard11]
  norm_num

/-- C1, counterexample: the claim says that for any two shards of the
same cooccurrence matrix the Max-Posterior/KL prior moments use equal
global scalars `(exp_mean, exp_std)`; but `calc_exp_pmi_stats` is
recomputed inside `_load` from the current partition's own `Nxx` slice
(bigram_loader.py:244, 281), so two shards of the concrete matrix
`cfull` (factor-2 strided shards at offsets `(0,0)` and `(1,1)`) get
different scalars: `(4, 0)` versus `(1, 0)` under the identity
interpretation of `exp`/`log`. -/
theorem exp_stats_shard_dependent_c1_counterexample :
    calc_exp_pmi_stats F1 (shardSlice cfull 2 0 0) ≠
      calc_exp_pmi_stats F1 (shardSlice cfull 2 1 1) :=
  exp_stats_differ

/-- C1 (amended): the Max-Posterior and KL transforms use the same
`(exp_mean, exp_std)` and the same Beta prior as each other on any given
partition — both `_load` bodies call `calc_exp_pmi_stats` then
`calc_prior_beta_params` on the identical arguments, and both batches
carry the identical `N_posterior` tensor built from that prior — but the
scalars are recomputed from each partition's own `Nxx` slice rather than
being global: different shards of the same matrix can yield different
`(exp_mean, exp_std)` (witnessed on `cfull`), so the posterior `alpha`
and `beta` depend on the partition a cell is processed in. -/
theorem mp_kl_prior_per_partition_c1 (F : Funs) (temperature : ℚ)
    (c : Cooc) :
    mp_prior F c =
      calc_prior_beta_params c (calc_exp_pmi_stats F c).1
        (calc_exp_pmi_stats F c).2 (Pxx_independent c) ∧
    ("N_posterior", TVal.matQ (mp_N_posterior F c)) ∈
      MaxPosteriorLoader_load F temperature c ∧
    ("N_posterior", TVal.matQ (mp_N_posterior F c)) ∈
      KLLoader_load F temperature c ∧
    calc_exp_pmi_stats F1 (shardSlice cfull 2 0 0) ≠
      calc_exp_pmi_stats F1 (shardSlice cfull 2 1 1) := by
  refine ⟨rfl, ?_, ?_, exp_stats_differ⟩
  · unfold MaxPosteriorLoader_load
    exact List.mem_cons_of_mem _ (List.mem_cons_self _ _)
  · unfold KLLoader_load
    exact List.mem_cons_of_mem _ (List.mem_cons_of_mem _
      (List.mem_cons_of_mem _ (List.mem_cons_self _ _)))

lemma flatMap_nil_const {α β : Type} :
    ∀ l : List α, l.flatMap (fun _ => ([] : List β)) = []
  | [] => rfl
  | _ :: t => by
    rw [List.flatMap_cons, flatMap_nil_const t]
    rfl

lemma insert_bucket {α : Type} (f : α → ℕ) (a : α) (g : ℕ → List α) :
    ∀ ls : List ℕ, ls.Nodup → f a ∈ ls →
      (ls.flatMap (fun l => if f a = l then a :: g l else g l)).Perm
        (a :: ls.flatMap g) := by
  intro ls
  induction ls with
  | nil => intro _ h; simp at h
  | cons l t ih =>
    intro hnd hmem
    rw [List.flatMap_cons, List.flatMap_cons]
    by_cases he : f a = l
    · rw [if_pos he]
      have hnotin : f a ∉ t := he ▸ (List.nodup_cons.mp hnd).1
      have ht : t.flatMap (fun l => if f a = l then a :: g l else g l) =
          t.flatMap g := by
        apply List.flatMap_congr
        intro b hb
        refine if_neg (fun hfb => hnotin ?_)
        rw [hfb]
        exact hb
      rw [ht]
      exact List.Perm.refl _
    · rw [if_neg he]
      have hmem' : f a ∈ t := by
        rcases List.mem_cons.mp hmem with h | h
        · exact absurd h he
        · exact h
      have hnd' := (List.nodup_cons.mp hnd).2
      exact ((ih hnd' hmem').append_left (g l)).trans List.perm_middle

lemma bucket_perm {α : Type} (f : α → ℕ) :
    ∀ (xs : List α) (L : ℕ), 0 < L → (∀ a ∈ xs, f a < L) →
      ((List.range L).flatMap
        (fun l => xs.filter (fun a => f a == l))).Perm xs := by
  intro xs
  induction xs with
  | nil =>
    intro L _ _
    rw [show ∀ l : List ℕ, l.flatMap
        (fun l => List.filter (fun a => f a == l) []) = l.flatMap
        (fun _ => ([] : List α)) from fun _ => rfl, flatMap_nil_const]
  | cons a t ih =>
    intro L hL h
    have hstep : (List.range L).flatMap
        (fun l => (a :: t).filter (fun x => f x == l)) =
        (List.range L).flatMap (fun l =>
          if f a = l then a :: t.filter (fun x => f x == l)
          else t.filter (fun x => f x == l)) := by
      apply List.flatMap_congr
      intro l _
      by_cases he : f a = l
      · rw [if_pos he, List.filter_cons_of_pos (by simpa using he)]
      · rw [if_neg he, List.filter_cons_of_neg (by simpa using he)]
    rw [hstep]
    have h1 := insert_bucket f a (fun l => t.filter (fun x => f x == l))
      (List.range L) (List.nodup_range L)
      (List.mem_range.mpr (h a (List.mem_cons_self a t)))
    exact h1.trans ((ih L hL
      (fun b hb => h b (List.mem_cons_of_mem a hb))).cons a)

/-- C7: For every number of workers `L ≥ 1`, every sector sequence and
every `loader_id < L`, `_preload_iter` keeps exactly the sectors whose
enumeration index `i` satisfies `i % L == loader_id` (leftover sectors
when `L` does not divide the sector count are still assigned to their
modulo class), and the multiset union over all `L` workers of the
yielded items is a permutation of the single-process (`L = 1`,
`loader_id = 0`) full traversal: no partition is produced twice, none is
skipped. -/
theorem preload_roundrobin_c7 {σ τ ι : Type} (L : ℕ) (hL : 0 < L)
    (sectors : List σ) (shard_ids : List τ) (item : σ → τ → ι) :
    (∀ l, l < L → ∀ p : ℕ × σ,
      p ∈ sectors.enum.filter (fun q => q.1 % L == l) ↔
        p ∈ sectors.enum ∧ p.1 % L = l) ∧
    ((List.range L).flatMap
        (fun l => preload_iter L l sectors shard_ids item)).Perm
      (preload_iter 1 0 sectors shard_ids item) := by
  constructor
  · intro l _ p
    rw [List.mem_filter]
    simp
  · unfold preload_iter
    have hfull : sectors.enum.filter (fun q => q.1 % 1 == 0) =
        sectors.enum := by
      apply List.filter_eq_self.mpr
      intro a _
      simp [Nat.mod_one]
    rw [hfull, ← List.flatMap_assoc]
    exact (bucket_perm (fun p : ℕ × σ => p.1 % L) sectors.enum L hL
      (fun p _ => Nat.mod_lt _ hL)).flatMap_right
      (fun p => shard_ids.map (item p.2))

/-- Witness for C7: the spec's fixture of 3 workers and 7 sectors, each
sector yielding one item per shard id of a 2-element shard list; the
union over workers is a permutation of the full traversal. -/
theorem preload_roundrobin_c7_witness :
    ((List.range 3).flatMap (fun l =>
      preload_iter 3 l [10, 20, 30, 40, 50, 60, 70] [0, 1] Prod.mk)).Perm
      (preload_iter 1 0 [10, 20, 30, 40, 50, 60, 70] [0, 1] Prod.mk) :=
  (preload_roundrobin_c7 3 (by norm_num) [10, 20, 30, 40, 50, 60, 70]
    [0, 1] Prod.mk).2

lemma loader_next_spec {P Q B : Type} (s : ModelBatchLoader P Q B) (t : ℕ)
    (h : s.crt_batch_id = some ((t : ℤ) - 1)) :
    loader_next s =
      if ht : t < s.preloaded_batches.length then
        .yielded (s.loadFn (s.prepare (s.preloaded_batches.get ⟨t, ht⟩)))
          { s with crt_batch_id := some (t : ℤ) }
      else .stopIteration { s with crt_batch_id := some (t : ℤ) } := by
  unfold loader_next
  rw [h]
  have harith : ((t : ℤ) - 1) + 1 = (t : ℤ) := by ring
  simp only [harith]
  by_cases ht : t < s.preloaded_batches.length
  · rw [dif_pos ht, if_neg (not_le.mpr (by exact_mod_cast ht))]
    unfold pyIdx
    rw [if_pos (Int.ofNat_nonneg t), Int.toNat_ofNat,
      List.get?_eq_get ht]
  · rw [dif_neg ht, if_pos (by exact_mod_cast not_lt.mp ht)]

lemma collectN_from {P Q B : Type} :
    ∀ (fuel : ℕ) (s : ModelBatchLoader P Q B) (t : ℕ),
      s.crt_batch_id = some ((t : ℤ) - 1) →
      collectN s fuel =
        ((s.preloaded_batches.drop t).take fuel).map
          (fun p => s.loadFn (s.prepare p)) := by
  intro fuel
  induction fuel with
  | zero => intro s t _; rfl
  | succ f ih =>
    intro s t h
    show (match loader_next s with
      | .yielded b s' => b :: collectN s' f
      | _ => []) = _
    rw [loader_next_spec s t h]
    by_cases ht : t < s.preloaded_batches.length
    · rw [dif_pos ht]
      show s.loadFn (s.prepare (s.preloaded_batches.get ⟨t, ht⟩)) ::
        collectN { s with crt_batch_id := some (t : ℤ) } f = _
      have h' : ({ s with crt_batch_id := some (t : ℤ)} :
          ModelBatchLoader P Q B).crt_batch_id =
          some (((t + 1 : ℕ) : ℤ) - 1) := by
        show some (t : ℤ) = _
        push_cast
        norm_num
      rw [ih { s with crt_batch_id := some (t : ℤ) } (t + 1) h']
      show _ = ((s.preloaded_batches.drop t).take (f + 1)).map
        (fun p => s.loadFn (s.prepare p))
      rw [List.drop_eq_getElem_cons ht, List.take_succ_cons, List.map_cons]
      rfl
    · rw [dif_neg ht]
      show ([] : List B) = _
      rw [List.drop_eq_nil_of_le (not_lt.mp ht)]
      rfl

lemma stateAfter_from {P Q B : Type} :
    ∀ (fuel : ℕ) (s : ModelBatchLoader P Q B) (t : ℕ),
      s.crt_batch_id = some ((t : ℤ) - 1) →
      t + fuel ≤ s.preloaded_batches.length →
      stateAfter s fuel =
        { s with crt_batch_id := some (((t + fuel : ℕ) : ℤ) - 1) } := by
  intro fuel
  induction fuel with
  | zero =>
    intro s t h _
    show s = _
    cases s with
    | mk pb crt prep lf =>
      simp only at h
      rw [h]
      rfl
  | succ f ih =>
    intro s t h hle
    have ht : t < s.preloaded_batches.length := by omega
    show (match loader_next s with
      | .yielded _ s' => stateAfter s' f
      | .stopIteration s' => s'
      | .raisesOther => s) = _
    rw [loader_next_spec s t h, dif_pos ht]
    show stateAfter { s with crt_batch_id := some (t : ℤ) } f = _
    have h' : ({ s with crt_batch_id := some (t : ℤ)} :
        ModelBatchLoader P Q B).crt_batch_id =
        some (((t + 1 : ℕ) : ℤ) - 1) := by
      show some (t : ℤ) = _
      push_cast
      norm_num
    rw [ih { s with crt_batch_id := some (t : ℤ) } (t + 1) h'
      (by show t + 1 + f ≤ s.preloaded_batches.length; omega)]
    have : ((t + 1 + f : ℕ) : ℤ) = ((t + (f + 1) : ℕ) : ℤ) := by
      push_cast
      ring
    rw [show (t + 1 + f : ℕ) = (t + (f + 1) : ℕ) by omega]

/-- C8: For every batch loader over `n` preloaded partitions, one full
traversal from `__iter__` yields exactly the `n` transformed batches (the
transform applied to each preloaded partition in order) and the next
`__next__` call then signals `StopIteration` (not a data-error
exception); `__iter__` is an idempotent cursor reset touching no other
field; and traversals re-apply the currently installed transform fresh —
replacing the transform before a new traversal changes every yielded
batch accordingly, nothing is cached. -/
theorem batch_iterator_c8 {P Q B : Type} (s : ModelBatchLoader P Q B) :
    collectN (loader_iter s) s.preloaded_batches.length =
      s.preloaded_batches.map (fun p => s.loadFn (s.prepare p)) ∧
    loader_next (stateAfter (loader_iter s) s.preloaded_batches.length) =
      .stopIteration
        { s with crt_batch_id := some (s.preloaded_batches.length : ℤ) } ∧
    loader_iter (loader_iter s) = loader_iter s ∧
    (loader_iter s).preloaded_batches = s.preloaded_batches ∧
    (loader_iter s).prepare = s.prepare ∧
    (loader_iter s).loadFn = s.loadFn ∧
    (∀ g : Q → B,
      collectN (loader_iter { s with loadFn := g })
          s.preloaded_batches.length =
        s.preloaded_batches.map (fun p => g (s.prepare p))) := by
  have key : ∀ s2 : ModelBatchLoader P Q B,
      collectN (loader_iter s2) s2.preloaded_batches.length =
        s2.preloaded_batches.map (fun p => s2.loadFn (s2.prepare p)) := by
    intro s2
    rw [collectN_from s2.preloaded_batches.length (loader_iter s2) 0
      (by show some (-1) = _; norm_num)]
    show ((s2.preloaded_batches.drop 0).take
      s2.preloaded_batches.length).map _ = _
    rw [List.drop_zero, List.take_length]
    rfl
  refine ⟨key s, ?_, rfl, rfl, rfl, rfl, fun g => key { s with loadFn := g }⟩
  rw [stateAfter_from s.preloaded_batches.length (loader_iter s) 0
    (by show some (-1) = _; norm_num)
    (by show (0 : ℕ) + s.preloaded_batches.length ≤
      s.preloaded_batches.length; omega)]
  rw [loader_next_spec _ s.preloaded_batches.length
    (by show some _ = _; norm_num)]
  rw [dif_neg (by
    show ¬ s.preloaded_batches.length < s.preloaded_batches.length
    omega)]
  rfl

/-- C10: `__iter__` returns the loader object itself with its single
internal cursor reset to the start and no other change; consequently two
interleaved traversals of the same loader share that one cursor, and
starting a second traversal while the first is in progress rewinds the
position: whatever the cursor was, the next `__next__` after `__iter__`
yields the transform of partition 0 again. -/
theorem iter_shared_cursor_c10 {P Q B : Type} (s : ModelBatchLoader P Q B)
    (h : 0 < s.preloaded_batches.length) :
    loader_iter s = { s with crt_batch_id := some (-1) } ∧
    loader_next (loader_iter s) =
      .yielded (s.loadFn (s.prepare (s.preloaded_batches.get ⟨0, h⟩)))
        { s with crt_batch_id := some 0 } := by
  refine ⟨rfl, ?_⟩
  rw [loader_next_spec (loader_iter s) 0 (by show some (-1) = _; norm_num)]
  rw [dif_pos (show (0 : ℕ) < (loader_iter s).preloaded_batches.length
    from h)]
  rfl

/-- Witness for C10: a loader holding the single preloaded partition `5`
with identity stages, mid-traversal; `__iter__` then `__next__` yields
batch `5` (partition 0) with the cursor back at `0`. -/
theorem iter_shared_cursor_c10_witness :
    loader_next (loader_iter loaderFix) =
      .yielded 5 { loaderFix with crt_batch_id := some 0 } :=
  (iter_shared_cursor_c10 loaderFix (by norm_num [loaderFix])).2
